import Mathlib

/-!
Verification of the asynchronous media-analysis pipeline (server/index.js and
server/evaluators/osceEvaluator.js) against its natural-language specification.

The JavaScript source is shallowly embedded: pure computations become Lean
functions over `Nat`/`Int`/`ℚ` and `List`, external-service calls become
explicit outcome parameters (`Except`/`Option`), and JS objects become Lean
structures.  Definitions follow the source; theorems state the spec's claims.
-/

namespace SimInsight

/-! ## Frame differencing and deduplication (server/index.js)

A `Frame` is the raw pixel buffer of one extracted video frame after the
external `sharp(..).resize(64, 64).raw()` downscale: a list of byte values
(0–255), one per channel per pixel.  The resize itself is performed by the
external `sharp` library; the embedding starts from the downscaled buffer. -/

abbrev Frame := List ℕ

/-- `calculateFrameDifference(framePath1, framePath2)`: sums the absolute
per-byte differences of the two downscaled buffers and divides by
`img1.length * 255` to normalize into [0,1].  The JS loop runs `i` over
`img1.length`; both buffers come from the same fixed 64×64 resize, so they
have equal length and the loop is a zip. -/
def calculateFrameDifference (img1 img2 : Frame) : ℚ :=
  ((List.zipWith (fun (x y : ℕ) => ((x : ℤ) - (y : ℤ)).natAbs) img1 img2).sum : ℚ)
    / ((img1.length : ℚ) * 255)

/-- Inner loop of `filterSignificantFrames`: `anchor` is the JS variable
`lastSignificantFrame`; a frame is kept iff its difference from the anchor
strictly exceeds the threshold, and a kept frame becomes the new anchor. -/
def filterSigGo (threshold : ℚ) (anchor : Frame) : List Frame → List Frame
  | [] => []
  | f :: fs =>
    if threshold < calculateFrameDifference anchor f then
      f :: filterSigGo threshold f fs
    else
      filterSigGo threshold anchor fs

/-- `filterSignificantFrames(frameFiles, framesDir, threshold)`: always keeps
the first frame and then runs the anchor loop over the remaining frames. -/
def filterSignificantFrames (threshold : ℚ) : List Frame → List Frame
  | [] => []
  | f0 :: rest => f0 :: filterSigGo threshold f0 rest

lemma calculateFrameDifference_self (f : Frame) :
    calculateFrameDifference f f = 0 := by
  have h : ∀ l : List ℕ,
      (List.zipWith (fun (x y : ℕ) => ((x : ℤ) - (y : ℤ)).natAbs) l l).sum = 0 := by
    intro l
    induction l with
    | nil => rfl
    | cons x xs ih => simp [List.zipWith_cons_cons, ih]
  simp [calculateFrameDifference, h]

lemma filterSigGo_chain (t : ℚ) (anchor : Frame) (l : List Frame) :
    List.Chain' (fun a b => t < calculateFrameDifference a b)
      (anchor :: filterSigGo t anchor l) := by
  induction l generalizing anchor with
  | nil => simp [filterSigGo]
  | cons f fs ih =>
    by_cases h : t < calculateFrameDifference anchor f
    · rw [filterSigGo, if_pos h]
      exact List.chain'_cons.mpr ⟨h, ih f⟩
    · rw [filterSigGo, if_neg h]
      exact ih anchor

lemma filterSigGo_sublist (t : ℚ) (anchor : Frame) (l : List Frame) :
    (filterSigGo t anchor l).Sublist l := by
  induction l generalizing anchor with
  | nil => simp [filterSigGo]
  | cons f fs ih =>
    by_cases h : t < calculateFrameDifference anchor f
    · rw [filterSigGo, if_pos h]
      exact (ih f).cons₂ f
    · rw [filterSigGo, if_neg h]
      exact (ih anchor).cons f

lemma filterSigGo_static (t : ℚ) (f0 : Frame) (l : List Frame)
    (hall : ∀ f ∈ l, f = f0) (ht : 0 ≤ t) :
    filterSigGo t f0 l = [] := by
  induction l with
  | nil => rfl
  | cons f fs ih =>
    have hf : f = f0 := hall f (by simp)
    subst hf
    have hkeep : ¬ t < calculateFrameDifference f f := by
      rw [calculateFrameDifference_self]
      exact not_lt.mpr ht
    rw [filterSigGo, if_neg hkeep]
    exact ih (fun g hg => hall g (by simp [hg]))

/-- **C1.**  The frame deduplicator always retains the first frame; every
retained frame after the first has a normalized pixel-difference score
strictly exceeding the threshold when computed against the last retained
frame (the chain of retained frames); retained frames are a subsequence of
the input; and a completely static video (all frames equal) retains only
frame 0. -/
theorem frameDedup_retention (frames : List Frame) (t : ℚ) :
    (filterSignificantFrames t frames).head? = frames.head?
    ∧ List.Chain' (fun a b => t < calculateFrameDifference a b)
        (filterSignificantFrames t frames)
    ∧ (filterSignificantFrames t frames).Sublist frames
    ∧ (∀ f0 fs, frames = f0 :: fs → (∀ f ∈ fs, f = f0) → 0 ≤ t →
        filterSignificantFrames t frames = [f0]) := by
  refine ⟨?_, ?_, ?_, ?_⟩
  · cases frames with
    | nil => rfl
    | cons f0 rest => simp [filterSignificantFrames]
  · cases frames with
    | nil => simp [filterSignificantFrames]
    | cons f0 rest => exact filterSigGo_chain t f0 rest
  · cases frames with
    | nil => simp [filterSignificantFrames]
    | cons f0 rest =>
      simpa [filterSignificantFrames] using (filterSigGo_sublist t f0 rest).cons₂ f0
  · intro f0 fs hframes hall ht
    subst hframes
    simp [filterSignificantFrames, filterSigGo_static t f0 fs hall ht]

/-- Witness for C1 at a concrete static three-frame video with the production
threshold 0.08: only frame 0 is retained. -/
theorem frameDedup_retention_witness :
    filterSignificantFrames (8/100) [[7, 7, 7], [7, 7, 7], [7, 7, 7]] = [[7, 7, 7]] := by
  exact (frameDedup_retention [[7, 7, 7], [7, 7, 7], [7, 7, 7]] (8/100)).2.2.2
    [7, 7, 7] [[7, 7, 7], [7, 7, 7]] rfl (by intro f hf; fin_cases hf <;> rfl)
    (by norm_num)

lemma calculateFrameDifference_replicate (n a b : ℕ) (hn : n ≠ 0) :
    calculateFrameDifference (List.replicate n a) (List.replicate n b)
      = ((((a : ℤ) - b).natAbs : ℚ)) / 255 := by
  have hz : List.zipWith (fun (x y : ℕ) => ((x : ℤ) - (y : ℤ)).natAbs)
      (List.replicate n a) (List.replicate n b)
      = List.replicate n ((a : ℤ) - (b : ℤ)).natAbs := by
    induction n with
    | zero => rfl
    | succ m ih => simp [List.replicate_succ, List.zipWith_cons_cons, ih]
  have hq : ((n : ℚ)) ≠ 0 := by exact_mod_cast hn
  rw [calculateFrameDifference, hz]
  simp only [List.sum_replicate, smul_eq_mul, List.length_replicate]
  push_cast
  field_simp
  ring

/-- **C2 (amended).**  Monotone coarsening does hold for inputs of at most
three frames: with a lower threshold at least as many frames are retained. -/
theorem frameDedup_monotone_three (f0 f1 f2 : Frame) (t1 t2 : ℚ) (h : t1 ≤ t2) :
    (filterSignificantFrames t2 [f0, f1, f2]).length
      ≤ (filterSignificantFrames t1 [f0, f1, f2]).length := by
  simp only [filterSignificantFrames, filterSigGo]
  split_ifs <;> simp_all <;> linarith

/-- Witness for the amended C2 at concrete frames and thresholds. -/
theorem frameDedup_monotone_three_witness :
    (filterSignificantFrames (2/10 : ℚ) [[0], [100], [200]]).length
      ≤ (filterSignificantFrames (1/10 : ℚ) [[0], [100], [200]]).length :=
  frameDedup_monotone_three [0] [100] [200] (1/10) (2/10) (by norm_num)

/-- **C2 (counterexample).**  Monotone coarsening fails for four frames: with
constant-gray 64×64×3 buffers of values 0, 100, 190, 5 the threshold 95/255
retains 2 frames while the strictly larger threshold 100/255 retains 3.
(With the lower threshold the second frame is kept and becomes the anchor,
hiding the later changes; with the higher threshold the anchor stays at
frame 0 and the last two frames both clear it.) -/
theorem frameDedup_monotone_counterexample :
    ((95 : ℚ)/255 < 100/255)
    ∧ (filterSignificantFrames ((95 : ℚ)/255)
        [List.replicate 12288 0, List.replicate 12288 100,
         List.replicate 12288 190, List.replicate 12288 5]).length = 2
    ∧ (filterSignificantFrames ((100 : ℚ)/255)
        [List.replicate 12288 0, List.replicate 12288 100,
         List.replicate 12288 190, List.replicate 12288 5]).length = 3 := by
  have dAB : calculateFrameDifference (List.replicate 12288 0) (List.replicate 12288 100)
      = 100/255 := by
    rw [calculateFrameDifference_replicate 12288 0 100 (by norm_num)]; norm_num
  have dBC : calculateFrameDifference (List.replicate 12288 100) (List.replicate 12288 190)
      = 90/255 := by
    rw [calculateFrameDifference_replicate 12288 100 190 (by norm_num)]; norm_num
  have dBD : calculateFrameDifference (List.replicate 12288 100) (List.replicate 12288 5)
      = 95/255 := by
    rw [calculateFrameDifference_replicate 12288 100 5 (by norm_num)]; norm_num
  have dAC : calculateFrameDifference (List.replicate 12288 0) (List.replicate 12288 190)
      = 190/255 := by
    rw [calculateFrameDifference_replicate 12288 0 190 (by norm_num)]; norm_num
  have dCD : calculateFrameDifference (List.replicate 12288 190) (List.replicate 12288 5)
      = 185/255 := by
    rw [calculateFrameDifference_replicate 12288 190 5 (by norm_num)]; norm_num
  refine ⟨by norm_num, ?_, ?_⟩
  · simp only [filterSignificantFrames, filterSigGo, dAB, dBC, dBD]
    norm_num
  · simp only [filterSignificantFrames, filterSigGo, dAB, dAC, dCD]
    norm_num

/-! ## Inference fan-out (processVideoFull / callRunPodVision)

`processVideoFull` chunks the significant frames into `imageGroups` of
`IMAGES_PER_REQUEST = 3` frames, chunks the groups into `batches` of
`BATCH_SIZE = 10` groups, and processes batches sequentially with
`await Promise.all` between them; within a batch every group is handled
concurrently, and `callRunPodVision` issues one HTTP request per image of its
group concurrently (`base64Images.map(... fetch ...)`, then `Promise.all`).
So during one batch the set of in-flight HTTP vision requests is one per
image of the batch. -/

/-- Fuel-indexed chunking; `chunkList n l` below always supplies
`fuel = l.length`, which is enough for every positive `n`.  Mirrors the JS
`for (let i = 0; i < l.length; i += n) out.push(l.slice(i, i + n))`. -/
def chunkFuel (n : ℕ) : ℕ → List α → List (List α)
  | _, [] => []
  | 0, _ :: _ => []
  | fuel + 1, x :: xs => ((x :: xs).take n) :: chunkFuel n fuel ((x :: xs).drop n)

/-- `l` sliced into consecutive chunks of `n` (last chunk possibly shorter). -/
def chunkList (n : ℕ) (l : List α) : List (List α) :=
  chunkFuel n l.length l

/-- `IMAGES_PER_REQUEST` in processVideoFull. -/
def IMAGES_PER_REQUEST : ℕ := 3

/-- `BATCH_SIZE` in processVideoFull ("Process 10 requests at a time"). -/
def BATCH_SIZE : ℕ := 10

/-- The `imageGroups` array: frames grouped 3 per RunPod request. -/
def imageGroups (frames : List α) : List (List α) :=
  chunkList IMAGES_PER_REQUEST frames

/-- The `batches` array: image groups partitioned into waves of 10 requests,
processed sequentially with an `await Promise.all` barrier between waves. -/
def visionWaves (frames : List α) : List (List (List α)) :=
  chunkList BATCH_SIZE (imageGroups frames)

/-- Number of HTTP vision-inference requests in flight while one wave runs:
`callRunPodVision` issues one `fetch` per image of each group, all
concurrently, and the whole wave is awaited at once. -/
def waveInFlight (wave : List (List α)) : ℕ :=
  (wave.map List.length).sum

lemma chunkFuel_mem_length_le (n fuel : ℕ) (l : List α) :
    ∀ c ∈ chunkFuel n fuel l, c.length ≤ n := by
  induction fuel generalizing l with
  | zero => cases l <;> simp [chunkFuel]
  | succ m ih =>
    cases l with
    | nil => simp [chunkFuel]
    | cons x xs =>
      intro c hc
      rcases (List.mem_cons).mp hc with h | h
      · subst h; simp [List.length_take_le]
      · exact ih _ c h

lemma chunkFuel_mem_mem (n fuel : ℕ) (l : List α) :
    ∀ c ∈ chunkFuel n fuel l, ∀ x ∈ c, x ∈ l := by
  induction fuel generalizing l with
  | zero => cases l <;> simp [chunkFuel]
  | succ m ih =>
    cases l with
    | nil => simp [chunkFuel]
    | cons y ys =>
      intro c hc x hx
      rcases (List.mem_cons).mp hc with h | h
      · subst h; exact List.mem_of_mem_take hx
      · exact List.mem_of_mem_drop (ih _ c h x hx)

/-- **C3 (amended).**  For every input frame list, every wave contains at most
`BATCH_SIZE = 10` concurrent `callRunPodVision` calls; but since each call
issues one HTTP vision request per image of its (≤ 3 image) group
concurrently, a wave can hold up to 30 — and in particular more than 10 —
HTTP requests in flight.  The proved bounds: each wave has ≤ 10 requests and
≤ 30 in-flight HTTP calls, with the wave awaited before the next starts
(`await Promise.all(batchPromises)` in the sequential batch loop). -/
theorem fanOut_concurrency_bounds (frames : List α)
    (wave : List (List α)) (hw : wave ∈ visionWaves frames) :
    wave.length ≤ BATCH_SIZE
    ∧ waveInFlight wave ≤ BATCH_SIZE * IMAGES_PER_REQUEST := by
  constructor
  · exact chunkFuel_mem_length_le BATCH_SIZE _ (imageGroups frames) wave hw
  · have hlen : wave.length ≤ BATCH_SIZE :=
      chunkFuel_mem_length_le BATCH_SIZE _ (imageGroups frames) wave hw
    have hgrp : ∀ g ∈ wave, g.length ≤ IMAGES_PER_REQUEST := by
      intro g hg
      have hmem : g ∈ imageGroups frames :=
        chunkFuel_mem_mem BATCH_SIZE _ (imageGroups frames) wave hw g hg
      exact chunkFuel_mem_length_le IMAGES_PER_REQUEST _ frames g hmem
    calc waveInFlight wave
        ≤ (wave.map List.length).length * IMAGES_PER_REQUEST := by
          apply List.sum_le_card_nsmul
          intro x hx
          rcases List.mem_map.mp hx with ⟨g, hg, rfl⟩
          exact hgrp g hg
      _ = wave.length * IMAGES_PER_REQUEST := by rw [List.length_map]
      _ ≤ BATCH_SIZE * IMAGES_PER_REQUEST :=
          Nat.mul_le_mul_right _ hlen

/-- Witness for the amended C3 at a concrete 11-frame input and its first
wave. -/
theorem fanOut_concurrency_bounds_witness :
    [[0, 1, 2], [3, 4, 5], [6, 7, 8], [9, 10]].length ≤ BATCH_SIZE
    ∧ waveInFlight [[0, 1, 2], [3, 4, 5], [6, 7, 8], [9, 10]]
        ≤ BATCH_SIZE * IMAGES_PER_REQUEST :=
  fanOut_concurrency_bounds (List.range 11) [[0, 1, 2], [3, 4, 5], [6, 7, 8], [9, 10]]
    (by decide)

/-- **C3 (counterexample).**  With 11 input frames a single wave holds 4
concurrent `callRunPodVision` calls whose images fan out into 11 concurrent
HTTP vision requests — strictly more than the claimed bound of 10 requests
in flight. -/
theorem fanOut_concurrency_counterexample :
    visionWaves (List.range 11) = [[[0, 1, 2], [3, 4, 5], [6, 7, 8], [9, 10]]]
    ∧ waveInFlight [[0, 1, 2], [3, 4, 5], [6, 7, 8], [9, 10]] = 11
    ∧ 10 < 11 := by
  refine ⟨by decide, by decide, by decide⟩

/-! ## Retry and backoff (callOpenAIWithRetry / callRunPodVision) -/

/-- Outcome of one external API attempt as classified by
`callOpenAIWithRetry`: success, a rate-limit rejection (`status === 429` or a
"Rate limit" message) optionally carrying a parsed "try again in Xms" hint,
or any other error. -/
inductive ApiOutcome where
  | success : ApiOutcome
  | rateLimited : Option ℕ → ApiOutcome
  | otherError : ApiOutcome
deriving DecidableEq

/-- The retry-after hint carried by an outcome, if any. -/
def hintOf : ApiOutcome → Option ℕ
  | .rateLimited h => h
  | _ => none

/-- Wait time `callOpenAIWithRetry` sleeps before re-attempting after a
rate-limit rejection: the "try again in (\d+)ms" hint plus a 100 ms buffer
when present, otherwise the exponential default `1000 * Math.pow(2, attempt)`
milliseconds. -/
def backoffWait (attempt : ℕ) (hint : Option ℕ) : ℕ :=
  match hint with
  | some h => h + 100
  | none => 1000 * 2 ^ attempt

/-- Delays slept by the `callOpenAIWithRetry` loop, given each attempt's
outcome.  The loop runs `attempt = 0 .. maxRetries`; a success returns, a
non-rate-limit error throws, a rate-limit on the final attempt throws, and
otherwise the loop sleeps `backoffWait attempt hint` and continues.
`fuel` starts at `maxRetries + 1 - attempt`. -/
def retryWaitsAux (outcomes : ℕ → ApiOutcome) (maxRetries : ℕ) : ℕ → ℕ → List ℕ
  | _, 0 => []
  | attempt, fuel + 1 =>
    match outcomes attempt with
    | .success => []
    | .otherError => []
    | .rateLimited hint =>
      if attempt = maxRetries then []
      else backoffWait attempt hint :: retryWaitsAux outcomes maxRetries (attempt + 1) fuel

/-- Delay trace of one `callOpenAIWithRetry(apiCall, maxRetries)` run. -/
def callOpenAIWithRetryWaits (outcomes : ℕ → ApiOutcome) (maxRetries : ℕ) : List ℕ :=
  retryWaitsAux outcomes maxRetries 0 (maxRetries + 1)

/-- `callRunPodVision`: each image is mapped to exactly one `fetch` of the
RunPod endpoint (`base64Images.map(async (image, i) => ... fetch ...)`) with
no retry loop anywhere on this path, and `Promise.all` rejects the whole call
if any fetch fails.  The first component is the trace of fetches issued (one
per image index); `respond i` is the external service's answer for image `i`
(payload content and its string cleanup are irrelevant to the claims and
passed through). -/
def callRunPodVisionTrace (respond : ℕ → Except String String) (images : List ℕ) :
    List ℕ × Except String (List String) :=
  (List.range images.length, (List.range images.length).mapM respond)

/-- The per-request `catch` in the processVideoFull batch loop: a request
whose `callRunPodVision` rejects contributes no observations (`return []`). -/
def processVisionRequest (respond : ℕ → Except String String) (images : List ℕ) :
    List String :=
  match (callRunPodVisionTrace respond images).2 with
  | .ok l => l
  | .error _ => []

lemma retryWaitsAux_head_nohint (outcomes : ℕ → ApiOutcome) (maxRetries : ℕ)
    (hnohint : ∀ n, hintOf (outcomes n) = none) (attempt fuel : ℕ) (w : ℕ)
    (hw : (retryWaitsAux outcomes maxRetries attempt fuel).head? = some w) :
    w = 1000 * 2 ^ attempt := by
  cases fuel with
  | zero => simp [retryWaitsAux] at hw
  | succ m =>
    cases houtcome : outcomes attempt with
    | success => simp [retryWaitsAux, houtcome] at hw
    | otherError => simp [retryWaitsAux, houtcome] at hw
    | rateLimited hint =>
      have hnone : hint = none := by
        have h2 := hnohint attempt
        rw [houtcome] at h2
        exact h2
      subst hnone
      by_cases hlast : attempt = maxRetries
      · subst hlast
        simp [retryWaitsAux, houtcome] at hw
      · simp only [retryWaitsAux, houtcome, if_neg hlast, List.head?_cons,
          Option.some.injEq] at hw
        simp only [backoffWait] at hw
        omega

lemma retryWaitsAux_chain_nohint (outcomes : ℕ → ApiOutcome) (maxRetries : ℕ)
    (hnohint : ∀ n, hintOf (outcomes n) = none) (fuel attempt : ℕ) :
    List.Chain' (· ≤ ·) (retryWaitsAux outcomes maxRetries attempt fuel) := by
  induction fuel generalizing attempt with
  | zero => simp [retryWaitsAux]
  | succ m ih =>
    cases houtcome : outcomes attempt with
    | success => simp [retryWaitsAux, houtcome]
    | otherError => simp [retryWaitsAux, houtcome]
    | rateLimited hint =>
      have hnone : hint = none := by
        have h2 := hnohint attempt
        rw [houtcome] at h2
        exact h2
      subst hnone
      by_cases hlast : attempt = maxRetries
      · subst hlast
        simp [retryWaitsAux, houtcome]
      · simp only [retryWaitsAux, houtcome, if_neg hlast]
        refine List.chain'_cons'.mpr ⟨?_, ih (attempt + 1)⟩
        intro w hw
        have hweq := retryWaitsAux_head_nohint outcomes maxRetries hnohint (attempt + 1) m w hw
        subst hweq
        simp only [backoffWait]
        exact Nat.mul_le_mul_left 1000 (Nat.pow_le_pow_right (by norm_num) (by omega))

/-- **C4 (amended).**  Failed RunPod vision-inference requests are never
retried: each image triggers exactly one fetch, whatever the outcomes, and a
failed request just contributes no observations.  The exponential-backoff
retry exists only in `callOpenAIWithRetry` (OpenAI calls), retries only
rate-limit failures up to `maxRetries`, and on the hint-free exponential
schedule its delay strictly doubles — hence is non-decreasing — across
consecutive attempts; the hypothesis excludes retry-after hints, which
override the schedule and can lower the wait. -/
theorem retryBackoff_amended (outcomes : ℕ → ApiOutcome) (maxRetries : ℕ)
    (hnohint : ∀ n, hintOf (outcomes n) = none) :
    (∀ (respond : ℕ → Except String String) (images : List ℕ),
      (callRunPodVisionTrace respond images).1 = List.range images.length)
    ∧ (∀ attempt, backoffWait attempt none < backoffWait (attempt + 1) none)
    ∧ List.Chain' (· ≤ ·) (callOpenAIWithRetryWaits outcomes maxRetries) := by
  refine ⟨fun _ _ => rfl, ?_, ?_⟩
  · intro attempt
    simp only [backoffWait]
    have : 2 ^ attempt < 2 ^ (attempt + 1) :=
      Nat.pow_lt_pow_right (by norm_num) (by omega)
    omega
  · exact retryWaitsAux_chain_nohint outcomes maxRetries hnohint (maxRetries + 1) 0

/-- Witness for the amended C4: a run that is rate limited without hints on
every attempt has a non-decreasing delay trace. -/
theorem retryBackoff_amended_witness :
    List.Chain' (· ≤ ·)
      (callOpenAIWithRetryWaits (fun _ => ApiOutcome.rateLimited none) 5) :=
  (retryBackoff_amended (fun _ => ApiOutcome.rateLimited none) 5 (fun _ => rfl)).2.2

/-- Outcome stream used by the C4 counterexample: first attempt rate limited
with no hint, second rate limited with a 500 ms retry-after hint, then
success. -/
def retryCexOutcomes : ℕ → ApiOutcome := fun n =>
  if n = 0 then .rateLimited none
  else if n = 1 then .rateLimited (some 500)
  else .success

/-- **C4 (counterexample).**  The claim fails twice on the code.  (1) A
failed vision-inference request is not retried: for a single-image
`callRunPodVision` whose fetch rejects, the trace shows exactly one fetch
(`[0]`) and the call just fails.  (2) With `maxRetries = 5`, a rate-limited
first attempt (no hint) waits 1000 ms and a rate-limited second attempt with
a 500 ms retry-after hint waits 600 ms — the delay trace `[1000, 600]`
decreases across consecutive attempts of the same failed request. -/
theorem retryBackoff_counterexample :
    (callRunPodVisionTrace (fun _ => Except.error "RunPod API error: 500") [7]).1 = [0]
    ∧ (callRunPodVisionTrace (fun _ => Except.error "RunPod API error: 500") [7]).2
        = Except.error "RunPod API error: 500"
    ∧ callOpenAIWithRetryWaits retryCexOutcomes 5 = [1000, 600]
    ∧ ¬ List.Chain' (· ≤ ·) (callOpenAIWithRetryWaits retryCexOutcomes 5) := by
  have htrace : callOpenAIWithRetryWaits retryCexOutcomes 5 = [1000, 600] := rfl
  refine ⟨rfl, rfl, htrace, ?_⟩
  rw [htrace]
  simp [List.chain'_cons]

/-! ## Job records, progress and terminal state (routes + processVideoFull)

The in-memory job registry `global.analysisJobs` maps job ids to mutable
records; `Job` models the fields the claims read.  Two code paths never
execute and are therefore not modeled as transitions:

* `POST /api/analyze-video` constructs `new RealtimeVision(...)` at
  part_008:285, but server/index.js never imports or defines
  `RealtimeVision` (only the client bundle imports it from `'overshoot'`),
  so the handler throws a `ReferenceError` inside its try block and answers
  500 before its job record (part_008:334) or its monitor interval
  (part_008:342) ever exist;
* the `progress = 85` write (part_008:1398) and the success epilogue of
  `processVideoFull` (part_008:1410-1413: `finalResults`,
  `stage/status = 'complete'`, `progress = 100`) are unreachable, because
  every run first executes part_008:1367, which reassigns the
  `const overshootResults` declared at part_008:1223 and therefore throws
  `TypeError: Assignment to constant variable`, sending the job to the
  error path with no further writes. -/

structure Job where
  status : String
  stage : String
  progress : ℚ
  overshootResults : List String
  transcriptResults : Option String
  finalResults : Option String
  error : Option String
  waitingForClientAnalysis : Bool

/-- The job record created by `/api/analyze-full` and the YouTube import
route before `processVideoFull` starts (videoTitle/fromCache elided). -/
def initFullAnalysisJob : Job :=
  { status := "processing", stage := "audio_extraction", progress := 0,
    overshootResults := [], transcriptResults := none, finalResults := none,
    error := none, waitingForClientAnalysis := false }

/-- `POST /api/overshoot-results/:jobId`: stores the client's results and
unconditionally sets `job.progress = 80`. -/
def overshootResultsHandler (results : List String) (job : Job) : Job :=
  { job with
    overshootResults := results
    waitingForClientAnalysis := false
    progress := 80 }

/-- Error path of a `processVideoFull` run (its `catch` plus the
route-level `.catch`, reached on every run — at the latest through the
part_008:1367 `TypeError`): `job.status = 'error'; job.error =
error.message`. -/
def errorTransition (msg : String) (job : Job) : Job :=
  { job with status := "error", error := some msg }

/-- Body of `GET /api/analysis-status/:jobId` for an existing job (the raw
`overshootResults` / `transcriptResults` echoes are elided; `resultsCount`
keeps their cardinality). -/
structure StatusResponse where
  success : Bool
  status : String
  stage : String
  progress : ℚ
  isComplete : Bool
  resultsCount : ℕ
  finalResults : Option String
  error : Option String

def statusResponse (job : Job) : StatusResponse :=
  { success := true, status := job.status, stage := job.stage,
    progress := job.progress, isComplete := job.status == "complete",
    resultsCount := job.overshootResults.length,
    finalResults := job.finalResults, error := job.error }

/-- Progress written after one fan-out wave:
`job.progress = 50 + Math.min(30, (overshootResults.length / frameFiles.length) * 30)`
with `c` the accumulated observation count and `total = frameFiles.length`. -/
def waveProgress (total : ℕ) (c : ℕ) : ℚ :=
  50 + min 30 ((c : ℚ) / (total : ℚ) * 30)

/-- Every value assigned to `job.progress` during a run of
`processVideoFull`, in program order: 0 at job creation, 10
(audio_extraction), 30 (transcription), 50 (video_analysis) and one
`waveProgress` entry per fan-out wave.  `waveCounts` is the accumulated
`overshootResults.length` after each wave.  The later assignments of 85
(part_008:1398) and 100 (part_008:1413) never execute — the
const-reassignment `TypeError` at part_008:1367 precedes them on every
run — so they are not part of the trace. -/
def progressTrace (total : ℕ) (waveCounts : List ℕ) : List ℚ :=
  0 :: 10 :: 30 :: 50 :: waveCounts.map (waveProgress total)

lemma waveProgress_le (total c : ℕ) : waveProgress total c ≤ 80 := by
  have h : min (30 : ℚ) ((c : ℚ) / (total : ℚ) * 30) ≤ 30 := min_le_left _ _
  simp only [waveProgress]
  linarith

lemma waveProgress_ge (total c : ℕ) : (50 : ℚ) ≤ waveProgress total c := by
  have hx : (0 : ℚ) ≤ (c : ℚ) / (total : ℚ) * 30 := by positivity
  have h : (0 : ℚ) ≤ min 30 ((c : ℚ) / (total : ℚ) * 30) :=
    le_min (by norm_num) hx
  simp only [waveProgress]
  linarith

lemma waveProgress_mono (total : ℕ) {c1 c2 : ℕ} (h : c1 ≤ c2) :
    waveProgress total c1 ≤ waveProgress total c2 := by
  have hdiv : (c1 : ℚ) / (total : ℚ) ≤ (c2 : ℚ) / (total : ℚ) := by
    rcases Nat.eq_zero_or_pos total with h0 | hpos
    · simp [h0]
    · have hposq : (0 : ℚ) < total := by exact_mod_cast hpos
      exact (div_le_div_iff_of_pos_right hposq).mpr (by exact_mod_cast h)
  have hmul : (c1 : ℚ) / (total : ℚ) * 30 ≤ (c2 : ℚ) / (total : ℚ) * 30 :=
    mul_le_mul_of_nonneg_right hdiv (by norm_num)
  have hmin : min (30 : ℚ) ((c1 : ℚ) / (total : ℚ) * 30)
      ≤ min 30 ((c2 : ℚ) / (total : ℚ) * 30) :=
    min_le_min le_rfl hmul
  simp only [waveProgress]
  linarith

lemma waveChain (total : ℕ) (cs : List ℕ) (h : List.Chain' (· ≤ ·) cs) :
    List.Chain' (· ≤ ·) (cs.map (waveProgress total)) :=
  (List.chain'_map _).mpr (h.imp (fun _ _ hab => waveProgress_mono total hab))

/-- **C5 (amended).**  The progress assignments `processVideoFull` actually
performs — 0, 10, 30, 50, then one value `50 + min(30, (c/total)·30) ≤ 80`
per wave — are non-decreasing and stay in [0,100] whenever the accumulated
observation counts only grow (the code only ever `push`es into
`overshootResults`).  The claim as a whole still fails: the
overshoot-results endpoint's unconditional `progress = 80` write can
interleave before a later pipeline write at any await point, after which
that pipeline write assigns a lower value — see the counterexample. -/
theorem progressTrace_monotone (total : ℕ) (waveCounts : List ℕ)
    (hmono : List.Chain' (· ≤ ·) waveCounts) :
    List.Chain' (· ≤ ·) (progressTrace total waveCounts)
    ∧ ∀ p ∈ progressTrace total waveCounts, 0 ≤ p ∧ p ≤ 100 := by
  constructor
  · refine List.chain'_cons.mpr ⟨by norm_num, ?_⟩
    refine List.chain'_cons.mpr ⟨by norm_num, ?_⟩
    refine List.chain'_cons.mpr ⟨by norm_num, ?_⟩
    refine List.chain'_cons'.mpr ⟨?_, waveChain total waveCounts hmono⟩
    intro y hy
    cases waveCounts with
    | nil => simp at hy
    | cons c cs =>
      simp only [List.map_cons, List.head?_cons, Option.mem_def,
        Option.some.injEq] at hy
      subst hy
      exact waveProgress_ge total c
  · intro p hp
    simp only [progressTrace, List.mem_cons, List.mem_map] at hp
    rcases hp with rfl | rfl | rfl | rfl | ⟨c, -, rfl⟩
    · norm_num
    · norm_num
    · norm_num
    · norm_num
    · exact ⟨le_trans (by norm_num) (waveProgress_ge total c),
        le_trans (waveProgress_le total c) (by norm_num)⟩

/-- Witness for the amended C5: a two-wave run over 6 significant frames with
counts 3 then 6. -/
theorem progressTrace_monotone_witness :
    List.Chain' (· ≤ ·) (progressTrace 6 [3, 6])
    ∧ ∀ p ∈ progressTrace 6 [3, 6], 0 ≤ p ∧ p ≤ 100 :=
  progressTrace_monotone 6 [3, 6]
    (List.chain'_cons.mpr ⟨by norm_num, List.chain'_singleton 6⟩)

/-- The mutations a full-analysis job record can actually undergo, each a
direct transcription of an assignment site: the three stage writes of
`processVideoFull` (part_008:1146-1147, 1162-1163, 1211-1212), the per-wave
result/progress update (part_008:1356-1357), the overshoot-results endpoint
(part_008:406-408), and the error path (part_008:1432-1437 plus the
route-level `.catch`).  The success epilogue and the `/api/analyze-video`
record are excluded as unreachable (see the section comment). -/
inductive JobMutation where
  | audioExtraction : JobMutation
  | transcription : JobMutation
  | videoAnalysis : JobMutation
  | waveUpdate (total c : ℕ) (results : List String) : JobMutation
  | overshootPost (results : List String) : JobMutation
  | fail (msg : String) : JobMutation

def applyMutation : JobMutation → Job → Job
  | .audioExtraction, job => { job with stage := "audio_extraction", progress := 10 }
  | .transcription, job => { job with stage := "transcription", progress := 30 }
  | .videoAnalysis, job => { job with stage := "video_analysis", progress := 50 }
  | .waveUpdate total c results, job =>
    { job with overshootResults := results, progress := waveProgress total c }
  | .overshootPost results, job => overshootResultsHandler results job
  | .fail msg, job => errorTransition msg job

/-- A job record after any reachable sequence of mutations, starting from
the record the routes create. -/
def runJob (ms : List JobMutation) : Job :=
  ms.foldl (fun job m => applyMutation m job) initFullAnalysisJob

/-- **C5 (counterexample).**  A reachable interleaving that lowers progress:
the pipeline writes 10 (audio_extraction) and suspends at the ffmpeg await;
the client POSTs `/api/overshoot-results/:jobId`, whose handler
unconditionally assigns `progress = 80` to the existing record; the pipeline
resumes and writes 30 (transcription).  A poll observes 80 and the next
poll observes 30 — a mutation assigned progress a value lower than a
previously assigned one. -/
theorem progressMonotone_counterexample :
    (statusResponse (runJob [JobMutation.audioExtraction,
        JobMutation.overshootPost []])).progress = 80
    ∧ (statusResponse (runJob [JobMutation.audioExtraction,
        JobMutation.overshootPost [], JobMutation.transcription])).progress = 30
    ∧ ((30 : ℚ) < 80) :=
  ⟨rfl, rfl, by norm_num⟩

/-- A job record carrying exactly one terminal payload: a populated
`finalResults` with a null `error`, or a non-null `error` with no
`finalResults`. -/
def exactlyOneTerminalPayload (j : Job) : Prop :=
  (j.finalResults.isSome = true ∧ j.error = none)
  ∨ (j.finalResults = none ∧ j.error.isSome = true)

/-- Invariant of every reachable job record: the status is still
`processing` or already `error`, `finalResults` was never written (its only
assignment site, part_008:1410, is unreachable), and an `error` status comes
with a non-null error message. -/
def JobInv (j : Job) : Prop :=
  (j.status = "processing" ∨ j.status = "error")
  ∧ j.finalResults = none
  ∧ (j.status = "error" → j.error.isSome = true)

lemma jobInv_apply (m : JobMutation) (j : Job) (h : JobInv j) :
    JobInv (applyMutation m j) := by
  cases m with
  | audioExtraction => exact h
  | transcription => exact h
  | videoAnalysis => exact h
  | waveUpdate total c results => exact h
  | overshootPost results => exact h
  | fail msg => exact ⟨Or.inr rfl, h.2.1, fun _ => rfl⟩

lemma jobInv_run (ms : List JobMutation) : JobInv (runJob ms) := by
  have hgen : ∀ (l : List JobMutation) (j : Job), JobInv j →
      JobInv (l.foldl (fun job m => applyMutation m job) j) := by
    intro l
    induction l with
    | nil => intro j hj; exact hj
    | cons m rest ih =>
      intro j hj
      exact ih (applyMutation m j) (jobInv_apply m j hj)
  exact hgen ms initFullAnalysisJob ⟨Or.inl rfl, rfl, fun h => absurd h (by decide)⟩

/-- **C6.**  On every reachable execution the claim holds: `finalResults`
is never populated (its only write is in the unreachable success epilogue
behind the part_008:1367 `TypeError`), the status endpoint never reports
`isComplete = true`, and once a job reaches its only reachable terminal
state — `error`, which every run enters through that `TypeError` or an
earlier stage failure — the polling client receives a non-null `error`
string and no `finalResults`: exactly one payload populated, never both,
never neither. -/
theorem terminalPayload_exactlyOne (ms : List JobMutation) :
    (statusResponse (runJob ms)).isComplete = false
    ∧ (runJob ms).finalResults = none
    ∧ ((runJob ms).status = "error" →
        exactlyOneTerminalPayload (runJob ms)
        ∧ (statusResponse (runJob ms)).error.isSome = true
        ∧ (statusResponse (runJob ms)).finalResults = none) := by
  have hinv := jobInv_run ms
  refine ⟨?_, hinv.2.1, ?_⟩
  · show ((runJob ms).status == "complete") = false
    rcases hinv.1 with h | h <;> rw [h] <;> decide
  · intro herr
    exact ⟨Or.inr ⟨hinv.2.1, hinv.2.2 herr⟩, hinv.2.2 herr, hinv.2.1⟩

/-- Witness for C6: the standard failing run — the three stage writes, one
fan-out wave, then the part_008:1367 `TypeError` — terminates in `error`
with exactly the error payload populated. -/
theorem terminalPayload_exactlyOne_witness :
    exactlyOneTerminalPayload (runJob [JobMutation.audioExtraction,
      JobMutation.transcription, JobMutation.videoAnalysis,
      JobMutation.waveUpdate 3 3 ["frame analysis"],
      JobMutation.fail "Assignment to constant variable"]) :=
  ((terminalPayload_exactlyOne [JobMutation.audioExtraction,
      JobMutation.transcription, JobMutation.videoAnalysis,
      JobMutation.waveUpdate 3 3 ["frame analysis"],
      JobMutation.fail "Assignment to constant variable"]).2.2 rfl).1

/-! ## Timeline fusion (extractEventsFromAnalysis)

`extractEventsFromAnalysis(transcript, overshootResults, mediapipeMetrics)`
runs a fixed battery of regex matchers over the vision observations and
(clinician) utterances; each match calls `addEvent` with a candidate event
at the source item's timestamp, in a fixed program order.  The regex layer
is string matching over external free-text and is abstracted here as the
resulting candidate list (in emission order); the deduplication
(`eventTimestamps` set keyed by `` `${event.time.toFixed(1)}-${event.type}` ``,
first add wins) and the final `events.sort((a, b) => a.time - b.time)` are
embedded exactly, so the theorems hold for every transcript and every set of
vision observations, whatever candidates the matchers emit. -/

structure Event where
  time : ℚ
  type : String
  severity : String
  description : String
  detail : String
deriving DecidableEq

/-- Deduplication key: `toFixed(1)` renders the timestamp to one decimal
place, so two candidates collide exactly when their times round to the same
decisecond and their types are equal (timestamps in this pipeline are
non-negative, so the rendered strings are in bijection with the rounded
values). -/
def ekey (e : Event) : ℤ × String :=
  (round ((10 : ℚ) * e.time), e.type)

/-- The `addEvent` fold: `seen` is the `eventTimestamps` set; a candidate
whose key was already added is dropped, otherwise it is pushed and its key
recorded. -/
def dedupGo (seen : List (ℤ × String)) : List Event → List Event
  | [] => []
  | c :: cs =>
    if ekey c ∈ seen then dedupGo seen cs
    else c :: dedupGo (ekey c :: seen) cs

/-- The `events` array after all matchers ran, before sorting. -/
def dedupEvents (cands : List Event) : List Event :=
  dedupGo [] cands

/-- Comparison used by `events.sort((a, b) => a.time - b.time)`. -/
def eventLE (a b : Event) : Prop := a.time ≤ b.time

instance : DecidableRel eventLE :=
  fun a b => inferInstanceAs (Decidable (a.time ≤ b.time))

instance : IsTotal Event eventLE := ⟨fun a b => le_total a.time b.time⟩

instance : IsTrans Event eventLE := ⟨fun _ _ _ hab hbc => le_trans hab hbc⟩

/-- `extractEventsFromAnalysis` final result: the deduplicated candidates
sorted by time (JS `Array.prototype.sort` is stable; any stable sort by the
same comparison represents it — insertion sort here). -/
def extractEventsFromAnalysis (cands : List Event) : List Event :=
  List.insertionSort eventLE (dedupEvents cands)

/-- Modelled from the spec: "Deduplication key is (type, time rounded to a
fixed granularity) — first match wins, later duplicates at the same key are
dropped."  Keeps each candidate iff no earlier candidate has the same key;
compared against the source's seen-set fold below. -/
def firstMatchWins : List Event → List Event
  | [] => []
  | c :: cs => c :: firstMatchWins (cs.filter (fun d => ekey d ≠ ekey c))
termination_by l => l.length
decreasing_by
  simp only [List.length_cons]
  exact Nat.lt_succ_of_le (List.length_filter_le _ cs)

lemma dedupGo_key_notin (l : List Event) (seen : List (ℤ × String)) :
    ∀ e ∈ dedupGo seen l, ekey e ∉ seen := by
  induction l generalizing seen with
  | nil => simp [dedupGo]
  | cons c cs ih =>
    by_cases h : ekey c ∈ seen
    · rw [dedupGo, if_pos h]
      exact ih seen
    · rw [dedupGo, if_neg h]
      intro e he
      rcases List.mem_cons.mp he with rfl | he2
      · exact h
      · have h3 := ih (ekey c :: seen) e he2
        exact fun hmem => h3 (List.mem_cons_of_mem _ hmem)

lemma dedupGo_pairwise (l : List Event) (seen : List (ℤ × String)) :
    List.Pairwise (fun a b => ekey a ≠ ekey b) (dedupGo seen l) := by
  induction l generalizing seen with
  | nil => simp [dedupGo]
  | cons c cs ih =>
    by_cases h : ekey c ∈ seen
    · rw [dedupGo, if_pos h]
      exact ih seen
    · rw [dedupGo, if_neg h]
      refine List.pairwise_cons.mpr ⟨?_, ih (ekey c :: seen)⟩
      intro b hb
      have h3 := dedupGo_key_notin cs (ekey c :: seen) b hb
      intro hkey
      exact h3 (by rw [← hkey]; exact List.mem_cons_self _ _)

lemma dedupGo_eq_firstMatchWins (l : List Event) (seen : List (ℤ × String)) :
    dedupGo seen l = firstMatchWins (l.filter (fun d => ekey d ∉ seen)) := by
  induction l generalizing seen with
  | nil => simp [dedupGo, firstMatchWins]
  | cons c cs ih =>
    by_cases h : ekey c ∈ seen
    · rw [dedupGo, if_pos h]
      have hfalse : (decide (ekey c ∉ seen)) = false := by simp [h]
      rw [List.filter_cons, hfalse]
      simp only [Bool.false_eq_true, if_false]
      exact ih seen
    · rw [dedupGo, if_neg h]
      have htrue : (decide (ekey c ∉ seen)) = true := by simp [h]
      rw [List.filter_cons, htrue]
      simp only [if_true]
      rw [firstMatchWins]
      congr 1
      rw [ih (ekey c :: seen), List.filter_filter]
      refine congrArg firstMatchWins (List.filter_congr ?_)
      intro d _
      by_cases h1 : ekey d = ekey c <;> by_cases h2 : ekey d ∈ seen <;>
        simp [List.mem_cons, h1, h2]

/-- **C7.**  For every candidate event stream (hence for every transcript
and every set of vision observations): the fused event list contains no two
events whose (type, decisecond-rounded time) keys coincide; it is sorted by
time; the pre-sort deduplication keeps exactly the first candidate at each
key and drops later duplicates (it equals the spec's first-match-wins
filter); and sorting only permutes the deduplicated events. -/
theorem eventFusion_dedup_sorted (cands : List Event) :
    List.Pairwise (fun a b => ekey a ≠ ekey b) (extractEventsFromAnalysis cands)
    ∧ List.Sorted eventLE (extractEventsFromAnalysis cands)
    ∧ dedupEvents cands = firstMatchWins cands
    ∧ (extractEventsFromAnalysis cands).Perm (dedupEvents cands) := by
  have hperm : (extractEventsFromAnalysis cands).Perm (dedupEvents cands) :=
    List.perm_insertionSort eventLE (dedupEvents cands)
  refine ⟨?_, ?_, ?_, hperm⟩
  · exact (List.Perm.pairwise_iff (fun {a b} h => Ne.symm h) hperm).mpr
      (dedupGo_pairwise cands [])
  · exact List.sorted_insertionSort eventLE (dedupEvents cands)
  · have h := dedupGo_eq_firstMatchWins cands []
    simpa [dedupEvents, List.filter_true] using h

/-! ## Speaker role resolution (classifySpeakers) -/

/-- One diarized utterance as prepared by `processVideoFull`
(`rawUtterances`): `speaker` is the anonymous Deepgram speaker id before
role resolution and the semantic role string afterwards, so the record is
parametrized by the speaker field's type.  `stop` models the JS field `end`
(a Lean keyword); `transcript` duplicates `text` in the source ("Add this
for classification"). -/
structure Utterance (α : Type) where
  time : String
  speaker : α
  text : String
  transcript : String
  start : ℚ
  stop : ℚ
  confidence : ℚ
deriving DecidableEq

/-- JS object spread `{ ...u, speaker: s }`: every field except `speaker` is
copied unchanged. -/
def setSpeaker (u : Utterance α) (s : β) : Utterance β :=
  { time := u.time, speaker := s, text := u.text, transcript := u.transcript,
    start := u.start, stop := u.stop, confidence := u.confidence }

/-- Forget the speaker field, for frame-effect statements. -/
def eraseSpeaker (u : Utterance α) : Utterance Unit := setSpeaker u ()

/-- The parsed JSON of the speaker-classification OpenAI response. -/
structure SpeakerClassification where
  clinician_speaker : ℕ
  patient_speaker : ℕ
  reasoning : String

/-- The `speakerMap` built from a classification: `clinician_speaker` is
written first and `patient_speaker` second (so the patient label wins if the
two coincide), and every other id gets the `Speaker ${id}` fallback — both
at map construction and at the `|| `Speaker ${u.speaker}`` lookup. -/
def speakerMapLookup (cls : SpeakerClassification) (sid : ℕ) : String :=
  if sid = cls.patient_speaker then "Patient"
  else if sid = cls.clinician_speaker then "Clinician"
  else "Speaker " ++ toString sid

/-- `classifySpeakers(utterances)`: empty input is returned as is; a single
distinct speaker id short-circuits to the role `Clinician` for everyone
without invoking the classification call; otherwise the OpenAI
classification (`oracle` — an external call that may throw or return
unparseable JSON, collapsed into `Except`) relabels every utterance through
`speakerMap`; on any error the catch falls back to the naive positional
mapping (id 0 = Clinician, everyone else = Patient). -/
def classifySpeakers (oracle : Except String SpeakerClassification)
    (us : List (Utterance ℕ)) : List (Utterance String) :=
  if us.isEmpty then []
  else if ((us.map (·.speaker)).dedup).length = 1 then
    us.map (fun u => setSpeaker u "Clinician")
  else
    match oracle with
    | .ok cls => us.map (fun u => setSpeaker u (speakerMapLookup cls u.speaker))
    | .error _ =>
      us.map (fun u => setSpeaker u (if u.speaker = 0 then "Clinician" else "Patient"))

/-- **C10.**  On every path — single speaker, classification, error
fallback — the speaker-role resolver returns a list of the same length, in
the same order, in which every field except `speaker` is unchanged (mapping
both sides through `eraseSpeaker` yields identical lists). -/
theorem speakerResolver_frame (oracle : Except String SpeakerClassification)
    (us : List (Utterance ℕ)) :
    (classifySpeakers oracle us).length = us.length
    ∧ (classifySpeakers oracle us).map eraseSpeaker = us.map eraseSpeaker := by
  have hmap : ∀ (f : Utterance ℕ → String),
      (us.map (fun u => setSpeaker u (f u))).map eraseSpeaker
        = us.map eraseSpeaker := by
    intro f
    simp only [List.map_map]
    rfl
  have hlen : ∀ (f : Utterance ℕ → String),
      (us.map (fun u => setSpeaker u (f u))).length = us.length := by
    intro f
    simp
  rw [classifySpeakers.eq_def]
  by_cases h1 : us.isEmpty
  · rw [if_pos h1]
    have h2 : us = [] := List.isEmpty_iff.mp h1
    subst h2
    exact ⟨rfl, rfl⟩
  · rw [if_neg h1]
    by_cases h2 : ((us.map (·.speaker)).dedup).length = 1
    · rw [if_pos h2]
      exact ⟨hlen _, hmap _⟩
    · rw [if_neg h2]
      cases oracle with
      | ok cls => exact ⟨hlen _, hmap _⟩
      | error e => exact ⟨hlen _, hmap _⟩

/-! ## OSCE domain evaluation and scoring
(server/evaluators/osceEvaluator.js, server/schemas/osceDomains.js,
generateSessionData) -/

/-- One entry of `overshootResults` as the evaluators consume it
(`frame.analysis` free text; the other keys are unused by them). -/
structure VisionFrame where
  analysis : String
  timeInVideo : ℚ

/-- Substring test on character lists (JS `String.prototype.includes`). -/
def containsSub (needle : List Char) : List Char → Bool
  | [] => needle.isEmpty
  | c :: rest => needle.isPrefixOf (c :: rest) || containsSub needle rest

/-- JS `text.toLowerCase().includes(term)` for a lowercase literal `term`. -/
def includesLower (text term : String) : Bool :=
  containsSub term.toList text.toLower.toList

structure VerbalEval where
  clear_articulation : Bool
  appropriate_pace : Bool
  appropriate_volume : Bool
  minimal_filler_words : Bool

structure NonverbalEval where
  eye_contact_percent : ℚ
  open_posture_percent : ℚ
  forward_lean : Bool
  nodding_frequency : String
  facial_expressions : String

structure ActiveListeningEval where
  allows_patient_to_speak : Bool
  interruption_count : ℕ
  acknowledges_emotions : Bool
  summarizes_periodically : Bool
  clarifies_understanding : Bool

structure EmpathyEval where
  empathy_statements_count : ℕ
  responds_to_emotions : Bool
  validates_feelings : Bool

structure CommunicationEval where
  verbal : VerbalEval
  nonverbal : NonverbalEval
  active_listening : ActiveListeningEval
  empathy : EmpathyEval
  score : ℚ
  notes : String

/-- `empathyPhrases` of `getFallbackCommunicationEval`. -/
def empathyPhrases : List String :=
  ["understand", "sounds like", "must be", "i hear you", "that's difficult"]

/-- Clinician utterances containing an empathy phrase (case-insensitive). -/
def fallbackEmpathyCount (transcript : List (Utterance String)) : ℕ :=
  ((transcript.filter (fun u => u.speaker == "Clinician")).filter
    (fun u => empathyPhrases.any (fun p => includesLower u.text p))).length

/-- `Math.round((eyeContactFrames / Math.max(totalFrames, 1)) * 100)`. -/
def fallbackEyeContactPct (frames : List VisionFrame) : ℕ :=
  (round (((frames.filter
      (fun f => includesLower f.analysis "eye contact")).length : ℚ)
    / ((max frames.length 1 : ℕ) : ℚ) * 100)).toNat

/-- `text.includes('open') && text.includes('posture')` frame percentage. -/
def fallbackOpenPosturePct (frames : List VisionFrame) : ℕ :=
  (round (((frames.filter
      (fun f => includesLower f.analysis "open"
        && includesLower f.analysis "posture")).length : ℚ)
    / ((max frames.length 1 : ℕ) : ℚ) * 100)).toNat

/-- `getFallbackCommunicationEval(transcriptSegments, videoFrameAnalyses)`:
deterministic keyword-count heuristic; score =
`Math.min(10, 6 + Math.floor(empathyCount / 2) + Math.floor(eyeContactPct / 20))`
(ℕ division is the floor of these non-negative quotients). -/
def getFallbackCommunicationEval (transcript : List (Utterance String))
    (frames : List VisionFrame) : CommunicationEval :=
  let empathyCount := fallbackEmpathyCount transcript
  let eyeContactPct := fallbackEyeContactPct frames
  let openPosturePct := fallbackOpenPosturePct frames
  { verbal := ⟨true, true, true, true⟩
    nonverbal :=
      { eye_contact_percent := (eyeContactPct : ℚ)
        open_posture_percent := (openPosturePct : ℚ)
        forward_lean := openPosturePct > 50
        nodding_frequency := "appropriate"
        facial_expressions := "empathetic" }
    active_listening :=
      { allows_patient_to_speak := true
        interruption_count := 0
        acknowledges_emotions := empathyCount > 0
        summarizes_periodically := false
        clarifies_understanding := true }
    empathy :=
      { empathy_statements_count := empathyCount
        responds_to_emotions := empathyCount > 0
        validates_feelings := empathyCount > 0 }
    score := ((min 10 (6 + empathyCount / 2 + eyeContactPct / 20) : ℕ) : ℚ)
    notes := "Fallback evaluation - structured output unavailable" }

structure TreatmentPlanEval where
  clearly_explained : Bool
  includes_risks_benefits : Bool
  discusses_alternatives : Bool
  addresses_barriers : Bool

structure FollowUpEval where
  timeline_specified : Bool
  warning_signs_discussed : Bool
  contact_info_provided : Bool

structure PatientEducationEval where
  assesses_understanding : Bool
  uses_plain_language : Bool
  avoids_jargon : Bool
  checks_health_literacy : Bool
  provides_written_materials : Bool
  teach_back_used : Bool
  addresses_concerns : Bool
  shared_decision_making : Bool
  treatment_plan : TreatmentPlanEval
  follow_up : FollowUpEval
  score : ℚ
  notes : String

/-- `/tell me|explain back|in your own words/i` over clinician utterances. -/
def teachBackDetected (transcript : List (Utterance String)) : Bool :=
  (transcript.filter (fun u => u.speaker == "Clinician")).any
    (fun u => includesLower u.text "tell me" || includesLower u.text "explain back"
      || includesLower u.text "in your own words")

/-- Clinician utterances containing one of the `medicalJargon` terms. -/
def fallbackJargonCount (transcript : List (Utterance String)) : ℕ :=
  ((transcript.filter (fun u => u.speaker == "Clinician")).filter
    (fun u => includesLower u.text "hypertension"
      || includesLower u.text "hyperlipidemia"
      || includesLower u.text "cardiovascular")).length

/-- `getFallbackPatientEducationEval(transcriptSegments)`. -/
def getFallbackPatientEducationEval (transcript : List (Utterance String)) :
    PatientEducationEval :=
  let teachBackUsed := teachBackDetected transcript
  let jargonCount := fallbackJargonCount transcript
  { assesses_understanding := teachBackUsed
    uses_plain_language := jargonCount < 3
    avoids_jargon := jargonCount == 0
    checks_health_literacy := false
    provides_written_materials := false
    teach_back_used := teachBackUsed
    addresses_concerns := true
    shared_decision_making := false
    treatment_plan := ⟨true, false, false, false⟩
    follow_up := ⟨false, false, false⟩
    score := if teachBackUsed then 8 else 6
    notes := "Fallback evaluation - structured output unavailable" }

structure RespectEval where
  patient_dignity : Bool
  cultural_sensitivity : Bool
  no_judgmental_language : Bool

structure BoundariesEval where
  appropriate_touch : Bool
  professional_distance : Bool
  no_personal_disclosure : Bool

structure EthicalBehaviorEval where
  honesty : Bool
  transparency : Bool
  acknowledges_limitations : Bool

structure ProfessionalismEval where
  punctuality : String
  dress_code : String
  respect : RespectEval
  boundaries : BoundariesEval
  ethical_behavior : EthicalBehaviorEval
  score : ℚ
  notes : String

/-- `getFallbackProfessionalismEval()` — a constant record. -/
def getFallbackProfessionalismEval : ProfessionalismEval :=
  { punctuality := "not_applicable"
    dress_code := "not_visible"
    respect := ⟨true, true, true⟩
    boundaries := ⟨true, true, true⟩
    ethical_behavior := ⟨true, true, false⟩
    score := 8
    notes := "Fallback evaluation - structured output unavailable" }

structure MedicationSafetyEval where
  verifies_allergies : Bool
  checks_interactions : Bool
  appropriate_dosing : Bool
  discusses_side_effects : Bool

structure HarmPreventionEval where
  suicide_risk_assessed : Option Bool
  domestic_violence_screened : Option Bool
  fall_risk_evaluated : Option Bool

structure ErrorManagementEval where
  acknowledges_uncertainty : Bool
  seeks_help_appropriately : Bool

structure SafetyEval where
  patient_identification : Bool
  hand_hygiene_compliance : Bool
  infection_control : Bool
  medication_safety : MedicationSafetyEval
  red_flags_recognized : List String
  harm_prevention : HarmPreventionEval
  error_management : ErrorManagementEval
  score : ℚ
  notes : String

/-- `getFallbackSafetyEval()` — a constant record (JS `null`s are `none`). -/
def getFallbackSafetyEval : SafetyEval :=
  { patient_identification := false
    hand_hygiene_compliance := false
    infection_control := false
    medication_safety := ⟨false, false, false, false⟩
    red_flags_recognized := []
    harm_prevention := ⟨none, none, none⟩
    error_management := ⟨false, false⟩
    score := 5
    notes := "Fallback evaluation - structured output unavailable. Limited safety data assessed." }

/-- `evaluateCommunicationSkills(openai, transcriptSegments,
videoFrameAnalyses)`: `svc` is the outcome of the external
structured-outputs call — an invalid client, a thrown request error and an
unparseable response all land in `.error` — and the per-domain `catch`
returns the local fallback. -/
def evaluateCommunicationSkills (svc : Except String CommunicationEval)
    (transcript : List (Utterance String)) (frames : List VisionFrame) :
    CommunicationEval :=
  match svc with
  | .ok v => v
  | .error _ => getFallbackCommunicationEval transcript frames

/-- `evaluatePatientEducation(openai, transcriptSegments)`. -/
def evaluatePatientEducation (svc : Except String PatientEducationEval)
    (transcript : List (Utterance String)) : PatientEducationEval :=
  match svc with
  | .ok v => v
  | .error _ => getFallbackPatientEducationEval transcript

/-- `evaluateProfessionalism(openai, transcriptSegments,
videoFrameAnalyses)` (its fallback takes no arguments). -/
def evaluateProfessionalism (svc : Except String ProfessionalismEval) :
    ProfessionalismEval :=
  match svc with
  | .ok v => v
  | .error _ => getFallbackProfessionalismEval

/-- `evaluateSafety(openai, transcriptSegments)` (fallback is constant). -/
def evaluateSafety (svc : Except String SafetyEval) : SafetyEval :=
  match svc with
  | .ok v => v
  | .error _ => getFallbackSafetyEval

/-- The four per-domain evaluations of `generateSessionData`
(`await Promise.all([...])`); since no evaluator ever rejects, the
aggregation is total. -/
structure OSCEDomains where
  communication_skills : CommunicationEval
  patient_education : PatientEducationEval
  professionalism : ProfessionalismEval
  safety : SafetyEval

def evaluateAllDomains (svcComm : Except String CommunicationEval)
    (svcPE : Except String PatientEducationEval)
    (svcProf : Except String ProfessionalismEval)
    (svcSafety : Except String SafetyEval)
    (transcript : List (Utterance String)) (frames : List VisionFrame) :
    OSCEDomains :=
  { communication_skills := evaluateCommunicationSkills svcComm transcript frames
    patient_education := evaluatePatientEducation svcPE transcript
    professionalism := evaluateProfessionalism svcProf
    safety := evaluateSafety svcSafety }

/-- A per-domain service outcome: failed (`.error e`) or succeeded with the
parsed structured value. -/
def pick (b : Bool) (v : α) (e : String) : Except String α :=
  if b then .error e else .ok v

/-- **C8.**  For every combination of per-domain failures (all 16 subsets,
encoded by the four Booleans) the aggregator still returns a full 4-domain
report: each failing domain carries its deterministic local fallback (a pure
function of the transcript/frames), each succeeding domain keeps its
service-derived value untouched, and no error propagates (the result is a
total record, not an `Except`). -/
theorem domainScoring_fallback_isolation
    (b1 b2 b3 b4 : Bool) (v1 : CommunicationEval) (v2 : PatientEducationEval)
    (v3 : ProfessionalismEval) (v4 : SafetyEval) (e1 e2 e3 e4 : String)
    (transcript : List (Utterance String)) (frames : List VisionFrame) :
    evaluateAllDomains (pick b1 v1 e1) (pick b2 v2 e2) (pick b3 v3 e3)
        (pick b4 v4 e4) transcript frames
      = { communication_skills :=
            if b1 then getFallbackCommunicationEval transcript frames else v1
          patient_education :=
            if b2 then getFallbackPatientEducationEval transcript else v2
          professionalism := if b3 then getFallbackProfessionalismEval else v3
          safety := if b4 then getFallbackSafetyEval else v4 } := by
  cases b1 <;> cases b2 <;> cases b3 <;> cases b4 <;> rfl

/-- `calculateGrade(percentage)` (server/schemas/osceDomains.js). -/
def calculateGrade (percentage : ℚ) : String :=
  if percentage ≥ 90 then "honors"
  else if percentage ≥ 80 then "high_pass"
  else if percentage ≥ 70 then "pass"
  else "fail"

/-- `totalScore` in generateSessionData: the sum of the four domain scores. -/
def osceTotalScore (d : OSCEDomains) : ℚ :=
  d.communication_skills.score + d.patient_education.score
    + d.professionalism.score + d.safety.score

/-- `percentage = (totalScore / 40) * 100` (4 domains × 10 points). -/
def oscePercentage (d : OSCEDomains) : ℚ :=
  osceTotalScore d / 40 * 100

/-- `grade = calculateGrade(percentage)`. -/
def osceGrade (d : OSCEDomains) : String :=
  calculateGrade (oscePercentage d)

/-- **C9.**  For every completed evaluation the overall score is the sum of
the four domain scores, the percentage is that sum divided by 40 and
multiplied by 100, and the grade is the fixed mapping from percentage:
at least 90 honors, at least 80 high_pass, at least 70 pass, below 70
fail. -/
theorem overallScoring (d : OSCEDomains) :
    osceTotalScore d = d.communication_skills.score + d.patient_education.score
        + d.professionalism.score + d.safety.score
    ∧ oscePercentage d = osceTotalScore d / 40 * 100
    ∧ (90 ≤ oscePercentage d → osceGrade d = "honors")
    ∧ (80 ≤ oscePercentage d → oscePercentage d < 90 → osceGrade d = "high_pass")
    ∧ (70 ≤ oscePercentage d → oscePercentage d < 80 → osceGrade d = "pass")
    ∧ (oscePercentage d < 70 → osceGrade d = "fail") := by
  refine ⟨rfl, rfl, ?_, ?_, ?_, ?_⟩
  · intro h
    rw [osceGrade, calculateGrade, if_pos h]
  · intro h hlt
    rw [osceGrade, calculateGrade, if_neg (not_le.mpr hlt), if_pos h]
  · intro h hlt
    rw [osceGrade, calculateGrade,
      if_neg (not_le.mpr (lt_of_lt_of_le hlt (by norm_num))),
      if_neg (not_le.mpr hlt), if_pos h]
  · intro hlt
    rw [osceGrade, calculateGrade,
      if_neg (not_le.mpr (lt_of_lt_of_le hlt (by norm_num))),
      if_neg (not_le.mpr (lt_of_lt_of_le hlt (by norm_num))),
      if_neg (not_le.mpr hlt)]

/-- Concrete domains for the C9 witness: service-derived scores 10, 9, 8, 9
(obtained through the aggregator on all-success outcomes). -/
def overallScoringWitnessDomains : OSCEDomains :=
  evaluateAllDomains
    (.ok { getFallbackCommunicationEval [] [] with score := 10 })
    (.ok { getFallbackPatientEducationEval [] with score := 9 })
    (.ok { getFallbackProfessionalismEval with score := 8 })
    (.ok { getFallbackSafetyEval with score := 9 })
    [] []

/-- Witness for C9: scores 10 + 9 + 8 + 9 = 36, percentage 90, grade
honors. -/
theorem overallScoring_witness :
    oscePercentage overallScoringWitnessDomains = 90
    ∧ osceGrade overallScoringWitnessDomains = "honors" := by
  have hp : oscePercentage overallScoringWitnessDomains = 90 := by
    norm_num [oscePercentage, osceTotalScore, overallScoringWitnessDomains,
      evaluateAllDomains, evaluateCommunicationSkills, evaluatePatientEducation,
      evaluateProfessionalism, evaluateSafety]
  exact ⟨hp, (overallScoring overallScoringWitnessDomains).2.2.1 (le_of_eq hp.symm)⟩

end SimInsight
